import Mathlib

set_option autoImplicit false

/-!
Shallow embedding of the validation-and-normalization engine of `main.py`
(a single-endpoint FastAPI metadata ingestion gateway).

Metadata values and schema-type nodes are JSON values, modelled by `Value`.
Python dicts are modelled as association lists in insertion order; Python
floats are modelled as rationals (no arithmetic is ever performed on them).
`validate_field_type` returns `Except Unit (Option String)`:
`.ok none` is Python `return None` (valid), `.ok (some msg)` is a returned
error-message string, and `.error ()` is an uncaught runtime exception
(calling `.items()` on a non-mapping `"schema"` entry).
-/

/-- A JSON-style dynamic value: the type of metadata values and of
`expected_type` schema nodes in the per-consumer configuration. -/
inductive Value where
  | str (s : String)
  | int (n : Int)
  | float (q : Rat)
  | bool (b : Bool)
  | list (elems : List Value)
  | dict (entries : List (String × Value))
  | null
deriving Repr

/-- Python dict lookup `d[k]` / `d.get(k)`: first entry bound to `key`
(dicts built by JSON parsing have unique keys). -/
def dictGet? : List (String × Value) → String → Option Value
  | [], _ => none
  | (k, v) :: rest, key => if k = key then some v else dictGet? rest key

/-- Python membership test `key in d`. -/
def dictContains (entries : List (String × Value)) (key : String) : Bool :=
  (dictGet? entries key).isSome

/-- Python assignment `d[key] = v`: overwrites in place when the key is
already present (keeping its position in insertion order), otherwise appends.
-/
def dictInsert : List (String × Value) → String → Value → List (String × Value)
  | [], key, v => [(key, v)]
  | (k, w) :: rest, key, v =>
      if k = key then (key, v) :: rest else (k, w) :: dictInsert rest key v

/-- Python `type(value).__name__`. -/
def Value.typeName : Value → String
  | .str _ => "str"
  | .int _ => "int"
  | .float _ => "float"
  | .bool _ => "bool"
  | .list _ => "list"
  | .dict _ => "dict"
  | .null => "NoneType"

/-- Python `isinstance(v, str)`. -/
def isStrInstance : Value → Bool
  | .str _ => true
  | _ => false

/-- Python `isinstance(v, (int, float))`.  In Python `bool` is a subclass of
`int`, so boolean values pass this check. -/
def isNumericInstance : Value → Bool
  | .int _ => true
  | .float _ => true
  | .bool _ => true
  | _ => false

/-- Python `isinstance(v, bool)`. -/
def isBoolInstance : Value → Bool
  | .bool _ => true
  | _ => false

/-- Python `isinstance(v, list)`. -/
def isListInstance : Value → Bool
  | .list _ => true
  | _ => false

/-- Python `isinstance(v, dict)`. -/
def isDictInstance : Value → Bool
  | .dict _ => true
  | _ => false

mutual

/-- Python `repr()` of a value, as used when f-strings format containers.
Floats are modelled as rationals, so their rendering is a modelling choice. -/
def Value.pyRepr : Value → String
  | .str s => "\x27" ++ s ++ "\x27"
  | .int n => toString n
  | .float q => toString q
  | .bool b => if b then "True" else "False"
  | .null => "None"
  | .list elems => "[" ++ String.intercalate ", " (pyReprList elems) ++ "]"
  | .dict entries =>
      "\x7b" ++ String.intercalate ", " (pyReprEntries entries) ++ "\x7d"

def pyReprList : List Value → List String
  | [] => []
  | v :: rest => v.pyRepr :: pyReprList rest

def pyReprEntries : List (String × Value) → List String
  | [] => []
  | (k, v) :: rest => ("\x27" ++ k ++ "\x27: " ++ v.pyRepr) :: pyReprEntries rest

end

/-- Python `str()` of a value, as an f-string renders `{expected_type}`. -/
def Value.pyStr : Value → String
  | .str s => s
  | v => v.pyRepr

/-- How an f-string renders a Python list of strings, e.g. `{missing}` in the
`Missing required fields` detail: `[\x27a\x27, \x27b\x27]`. -/
def pyStrListRepr (names : List String) : String :=
  "[" ++ String.intercalate ", " (names.map (fun s => "\x27" ++ s ++ "\x27")) ++ "]"

/-- Python truthiness of the `error` variable in `if error:` /
`if error_msg:`: `None` and the empty string are falsy. -/
def pyTruthy : Option String → Bool
  | none => false
  | some s => s != ""

/-- The primitive-tag branch of `validate_field_type` (main.py lines 58-88):
the `elif` chain over `string | number | boolean | array | object |
array_of_object`, with any other `expected_type` reported as an unsupported
data type. -/
def validatePrimitive (value expected_type : Value) : Option String :=
  match expected_type with
  | .str "string" =>
      if isStrInstance value then none
      else some ("expected string, got " ++ value.typeName)
  | .str "number" =>
      if isNumericInstance value then none
      else some ("expected number, got " ++ value.typeName)
  | .str "boolean" =>
      if isBoolInstance value then none
      else some ("expected boolean, got " ++ value.typeName)
  | .str "array" =>
      if isListInstance value then none
      else some ("expected array, got " ++ value.typeName)
  | .str "object" =>
      if isDictInstance value then none
      else some ("expected object, got " ++ value.typeName)
  | .str "array_of_object" =>
      match value with
      | .list elems =>
          if elems.all isDictInstance then none
          else some "expected array of objects, but one or more elements are not objects"
      | _ => some ("expected array of objects, got " ++ value.typeName)
  | other => some ("unsupported data type \x27" ++ other.pyStr ++ "\x27 in config")

/-- Lookups with `dictGet?` only return entries of the list, so the result is smaller. -/
theorem sizeOf_dictGet? {es : List (String × Value)} {k : String} {v : Value}
    (h : dictGet? es k = some v) : sizeOf v < sizeOf es := by
  induction es with
  | nil => simp [dictGet?] at h
  | cons p rest ih =>
      obtain ⟨k', v'⟩ := p
      rw [dictGet?] at h
      by_cases hk : k' = k
      · simp [hk] at h
        subst h
        simp
        omega
      · simp [hk] at h
        have := ih h
        simp
        omega

/-- Python `expected_type.get("schema", \x7b\x7d).items()`: `some` entry list
when the lookup yields a mapping (or the empty default), `none` when calling
`.items()` on a non-mapping would raise. -/
def schemaEntries? (tes : List (String × Value)) :
    Option (List (String × Value)) :=
  match dictGet? tes "schema" with
  | none => some []
  | some (.dict ses) => some ses
  | some _ => none

/-- The entries of a nested schema are smaller than the enclosing node. -/
theorem sizeOf_schemaEntries? {tes ses : List (String × Value)}
    (h : schemaEntries? tes = some ses) : sizeOf ses < sizeOf (Value.dict tes) := by
  have hpos : 0 < sizeOf tes := by cases tes <;> simp_arith
  unfold schemaEntries? at h
  cases hget : dictGet? tes "schema" with
  | none =>
      rw [hget] at h
      simp at h
      subst h
      simp
      omega
  | some w =>
      rw [hget] at h
      have hw := sizeOf_dictGet? hget
      cases w <;> simp at h
      subst h
      simp at hw ⊢
      omega

mutual

/-- Embedding of `validate_field_type` (main.py lines 29-88).  A `dict`
`expected_type` is treated as a nested schema node (lines 37-51); any other
`expected_type` goes through the primitive `elif` chain (`validatePrimitive`).
-/
def validate_field_type (field_name : String) (value expected_type : Value) :
    Except Unit (Option String) :=
  match expected_type with
  | .dict tes =>
      match dictGet? tes "type" with
      | some (.str "object") =>
          match value with
          | .dict ves =>
              match hs : schemaEntries? tes with
              | some ses => validateNestedSchema field_name ves ses
              | none => .error ()
          | _ =>
              .ok (some ("expected object for \x27" ++ field_name ++ "\x27, got "
                ++ value.typeName))
      | _ =>
          .ok (some ("unsupported nested type structure in \x27" ++ field_name
            ++ "\x27"))
  | _ => .ok (validatePrimitive value expected_type)
termination_by sizeOf expected_type
decreasing_by
  exact sizeOf_schemaEntries? hs

/-- The nested-schema loop of `validate_field_type` (lines 43-48 and the final
`return None` of line 51): the first missing nested field, or the first truthy
nested error, is returned without continuing. -/
def validateNestedSchema (field_name : String) (ves : List (String × Value)) :
    List (String × Value) → Except Unit (Option String)
  | [] => .ok none
  | (nf, nt) :: rest =>
      match dictGet? ves nf with
      | none =>
          .ok (some ("missing nested field \x27" ++ nf ++ "\x27 in \x27"
            ++ field_name ++ "\x27"))
      | some nv =>
          match validate_field_type (field_name ++ "." ++ nf) nv nt with
          | .error e => .error e
          | .ok r =>
              if pyTruthy r then .ok r
              else validateNestedSchema field_name ves rest
termination_by entries => sizeOf entries
decreasing_by
  all_goals simp_wf
  all_goals omega

end

/-- Outcome of `validate_metadata`: normal return, a raised
`HTTPException(status_code, detail)`, or an uncaught runtime exception
propagating out of `validate_field_type`. -/
inductive MetaResult where
  | ok
  | httpError (status : Nat) (detail : String)
  | exn
deriving DecidableEq, Repr

/-- The type-checking loop of `validate_metadata` (lines 100-108): fields
declared in `field_types` but absent from the metadata are skipped; the first
truthy field error raises a 400 with the wrapped detail. -/
def checkFieldTypes (metadata : List (String × Value)) :
    List (String × Value) → MetaResult
  | [] => .ok
  | (field, expected_type) :: rest =>
      match dictGet? metadata field with
      | none => checkFieldTypes metadata rest
      | some v =>
          match validate_field_type field v expected_type with
          | .error _ => .exn
          | .ok r =>
              if pyTruthy r then
                .httpError 400 ("Incorrect data type for field \x27" ++ field
                  ++ "\x27: " ++ r.getD "")
              else checkFieldTypes metadata rest

/-- Embedding of `validate_metadata` (lines 93-108): the ordered list of
required fields absent from the metadata is computed first; when non-empty a
400 is raised carrying the whole list, otherwise the type-checking loop runs.
-/
def validate_metadata (metadata : List (String × Value))
    (required_fields : List String) (field_types : List (String × Value)) :
    MetaResult :=
  let missing := required_fields.filter (fun f => ! dictContains metadata f)
  if missing.isEmpty then checkFieldTypes metadata field_types
  else .httpError 400 ("Missing required fields: " ++ pyStrListRepr missing)

/-- Embedding of `normalize_metadata` (lines 111-117): folds over the rename
map in iteration order, copying `metadata[consumer_key]` to
`normalized[internal_key]` whenever the consumer key is present. -/
def normalize_metadata (metadata : List (String × Value))
    (mappings : List (String × String)) : List (String × Value) :=
  mappings.foldl
    (fun normalized p =>
      match dictGet? metadata p.1 with
      | some v => dictInsert normalized p.2 v
      | none => normalized)
    []

/-- On a string tag, `validate_field_type` is the primitive `elif` chain. -/
theorem validate_field_type_str (f : String) (v : Value) (s : String) :
    validate_field_type f v (.str s) = .ok (validatePrimitive v (.str s)) :=
  validate_field_type.eq_3 f v (.str s) (fun _ h => Value.noConfusion h)

/-- Nested node whose `type` tag is `"object"`, checked against a non-mapping
value: a type-mismatch message naming the field path and the actual kind. -/
theorem validate_field_type_object_nonMapping (f : String) (v : Value)
    (tes : List (String × Value))
    (ht : dictGet? tes "type" = some (.str "object"))
    (hv : isDictInstance v = false) :
    validate_field_type f v (.dict tes) =
      .ok (some ("expected object for \x27" ++ f ++ "\x27, got " ++ v.typeName)) := by
  have h2 := validate_field_type.eq_2 f v tes
    (by intro e h; subst h; simp [isDictInstance] at hv)
  rw [h2, ht]
  rfl

/-- Nested node whose `type` tag is `"object"`, checked against a mapping
with a well-formed (or defaulted) `schema` entry: the nested-schema loop runs
over the entries of the node `schema`. -/
theorem validate_field_type_object_mapping (f : String)
    (ves tes ses : List (String × Value))
    (ht : dictGet? tes "type" = some (.str "object"))
    (hsch : schemaEntries? tes = some ses) :
    validate_field_type f (.dict ves) (.dict tes) =
      validateNestedSchema f ves ses := by
  rw [validate_field_type.eq_1, ht]
  split
  · split <;> simp_all
  · simp_all

/-- Nested node whose `type` tag is `"object"`, checked against a mapping,
when the `schema` entry of the node is a non-mapping: `.items()` raises. -/
theorem validate_field_type_object_badSchema (f : String)
    (ves tes : List (String × Value))
    (ht : dictGet? tes "type" = some (.str "object"))
    (hsch : schemaEntries? tes = none) :
    validate_field_type f (.dict ves) (.dict tes) = .error () := by
  rw [validate_field_type.eq_1, ht]
  split
  · split <;> simp_all
  · simp_all

/-- Nested node whose `type` tag is not `"object"`: unsupported structure. -/
theorem validate_field_type_dict_not_object (f : String) (v : Value)
    (tes : List (String × Value))
    (ht : dictGet? tes "type" ≠ some (.str "object")) :
    validate_field_type f v (.dict tes) =
      .ok (some ("unsupported nested type structure in \x27" ++ f ++ "\x27")) := by
  cases v
  all_goals first
    | rw [validate_field_type.eq_1]
    | rw [validate_field_type.eq_2 _ _ tes (fun _ h => Value.noConfusion h)]
  all_goals split <;> first | exact absurd ‹_› ht | rfl

/-- Empty nested schema: the loop returns `None` (line 51). -/
theorem validateNestedSchema_nil (f : String) (ves : List (String × Value)) :
    validateNestedSchema f ves [] = .ok none := by
  rw [validateNestedSchema]

/-- One step of the nested-schema loop. -/
theorem validateNestedSchema_cons (f nf : String) (ves : List (String × Value))
    (nt : Value) (rest : List (String × Value)) :
    validateNestedSchema f ves ((nf, nt) :: rest) =
      match dictGet? ves nf with
      | none =>
          .ok (some ("missing nested field \x27" ++ nf ++ "\x27 in \x27" ++ f ++ "\x27"))
      | some nv =>
          match validate_field_type (f ++ "." ++ nf) nv nt with
          | .error e => .error e
          | .ok r =>
              if pyTruthy r then .ok r
              else validateNestedSchema f ves rest := by
  rw [validateNestedSchema]

/-- Looking up after a Python-style dict assignment: the assigned key now maps
to the new value, every other key is untouched. -/
theorem dictGet?_dictInsert (es : List (String × Value)) (k key : String)
    (v : Value) :
    dictGet? (dictInsert es key v) k = if k = key then some v else dictGet? es k := by
  induction es with
  | nil =>
      simp only [dictInsert, dictGet?]
      by_cases h : key = k
      · rw [if_pos h, if_pos h.symm]
      · rw [if_neg h, if_neg (fun hk => h hk.symm)]
  | cons p rest ih =>
      obtain ⟨k1, w⟩ := p
      simp only [dictInsert]
      by_cases h1 : k1 = key
      · rw [if_pos h1]
        simp only [dictGet?]
        by_cases h2 : key = k
        · rw [if_pos h2, if_pos h2.symm]
        · rw [if_neg h2, if_neg (fun hk => h2 hk.symm),
            if_neg (fun hk => h2 (h1.symm.trans hk))]
      · rw [if_neg h1]
        simp only [dictGet?]
        rw [ih]
        by_cases h2 : k1 = k
        · rw [if_pos h2, if_neg (fun hk => h1 (h2.trans hk)), if_pos h2]
        · rw [if_neg h2, if_neg h2]

/-- A metadata record containing every required field produces an empty
`missing` list. -/
theorem filter_missing_nil (m : List (String × Value)) (req : List String)
    (h : ∀ r ∈ req, dictContains m r = true) :
    req.filter (fun f => ! dictContains m f) = [] := by
  rw [List.filter_eq_nil_iff]
  intro r hr
  simp [h r hr]

/-- Running `validate_metadata` with a non-empty missing list raises the 400 carrying
the whole ordered list of missing required fields. -/
theorem validate_metadata_missing (m : List (String × Value)) (req : List String)
    (ft : List (String × Value))
    (h : req.filter (fun f => ! dictContains m f) ≠ []) :
    validate_metadata m req ft =
      .httpError 400 ("Missing required fields: "
        ++ pyStrListRepr (req.filter (fun f => ! dictContains m f))) := by
  simp only [validate_metadata]
  rw [if_neg]
  simpa using h

/-- Running `validate_metadata` with every required field present proceeds to the
type-checking loop. -/
theorem validate_metadata_present (m : List (String × Value)) (req : List String)
    (ft : List (String × Value))
    (h : ∀ r ∈ req, dictContains m r = true) :
    validate_metadata m req ft = checkFieldTypes m ft := by
  simp only [validate_metadata]
  rw [filter_missing_nil m req h]
  rfl

/-- The consumer key of the LAST rename-map entry that targets `ik` and whose
consumer key is present in the metadata (if any): because Python dict
assignment overwrites, this is the entry whose value survives in the
normalized record. -/
def lastPresentSource (m : List (String × Value)) (mp : List (String × String))
    (ik : String) : Option String :=
  ((mp.filter (fun p => p.2 == ik && dictContains m p.1)).map Prod.fst).getLast?

/-- Lookup characterization of the fold inside `normalize_metadata`, for an
arbitrary accumulator. -/
theorem normalize_foldl_lookup (m : List (String × Value))
    (mp : List (String × String)) (acc : List (String × Value)) (ik : String) :
    dictGet? (mp.foldl (fun normalized p =>
        match dictGet? m p.1 with
        | some v => dictInsert normalized p.2 v
        | none => normalized) acc) ik =
      (lastPresentSource m mp ik).elim (dictGet? acc ik)
        (fun ck => dictGet? m ck) := by
  induction mp generalizing acc with
  | nil => simp [lastPresentSource]
  | cons q mp ih =>
      obtain ⟨ck0, ik0⟩ := q
      rw [List.foldl_cons]
      cases hget : dictGet? m ck0 with
      | none =>
          have hc : dictContains m ck0 = false := by simp [dictContains, hget]
          simp only [hget]
          rw [ih]
          simp [lastPresentSource, List.filter_cons, hc]
      | some v0 =>
          have hc : dictContains m ck0 = true := by simp [dictContains, hget]
          simp only [hget]
          rw [ih]
          by_cases hik : ik0 = ik
          · subst hik
            simp only [lastPresentSource, List.filter_cons, hc, beq_self_eq_true,
              Bool.true_and, Bool.and_self, if_pos, List.map_cons]
            cases hlast : ((mp.filter
                (fun p => p.2 == ik0 && dictContains m p.1)).map Prod.fst).getLast? with
            | none =>
                have hnil := List.getLast?_eq_none_iff.mp hlast
                rw [hnil]
                simp [Option.elim, dictGet?_dictInsert, hget]
            | some ck1 =>
                cases hL : (mp.filter
                    (fun p => p.2 == ik0 && dictContains m p.1)).map Prod.fst with
                | nil => rw [hL] at hlast; simp at hlast
                | cons b L =>
                    rw [hL] at hlast
                    rw [List.getLast?_cons_cons, hlast]
                    rfl
          · have hbeq : (ik0 == ik) = false := by simp [hik]
            simp only [lastPresentSource, List.filter_cons, hbeq, Bool.false_and,
              if_neg, Bool.false_eq_true, not_false_eq_true]
            cases hlast : ((mp.filter
                (fun p => p.2 == ik && dictContains m p.1)).map Prod.fst).getLast? with
            | none =>
                show dictGet? (dictInsert acc ik0 v0) ik = dictGet? acc ik
                rw [dictGet?_dictInsert, if_neg (fun h : ik = ik0 => hik h.symm)]
            | some ck1 => rfl

/-- Lookup in the normalized record: the value of the last present mapping
entry targeting the key, if any. -/
theorem normalize_metadata_lookup (m : List (String × Value))
    (mp : List (String × String)) (ik : String) :
    dictGet? (normalize_metadata m mp) ik =
      (lastPresentSource m mp ik).bind (fun ck => dictGet? m ck) := by
  rw [normalize_metadata, normalize_foldl_lookup]
  cases lastPresentSource m mp ik <;> rfl

/-- A key appears in the normalized record exactly when some mapping entry
targets it and its consumer key is present in the metadata. -/
theorem dictContains_normalize (m : List (String × Value))
    (mp : List (String × String)) (ik : String) :
    dictContains (normalize_metadata m mp) ik = true ↔
      ∃ ck, (ck, ik) ∈ mp ∧ dictContains m ck = true := by
  rw [dictContains, Option.isSome_iff_exists]
  constructor
  · rintro ⟨v, hv⟩
    rw [normalize_metadata_lookup] at hv
    cases hlast : lastPresentSource m mp ik with
    | none => rw [hlast] at hv; simp at hv
    | some ck =>
        have hckmem := List.mem_of_getLast?_eq_some (hlast : _ = some ck)
        obtain ⟨p, hpf, hpfst⟩ := List.mem_map.mp hckmem
        obtain ⟨hpmp, hpred⟩ := List.mem_filter.mp hpf
        obtain ⟨k1, k2⟩ := p
        simp only [beq_iff_eq, Bool.and_eq_true] at hpred
        obtain ⟨hk2, hcont⟩ := hpred
        cases hpfst
        cases hk2
        exact ⟨k1, hpmp, hcont⟩
  · rintro ⟨ck, hmem, hcont⟩
    rw [normalize_metadata_lookup]
    have hmemf : (ck, ik) ∈ mp.filter (fun p => p.2 == ik && dictContains m p.1) :=
      List.mem_filter.mpr ⟨hmem, by simp [hcont]⟩
    have hne : (mp.filter (fun p => p.2 == ik && dictContains m p.1)).map Prod.fst ≠ [] := by
      simp only [ne_eq, List.map_eq_nil_iff]
      intro hnil
      rw [hnil] at hmemf
      simp at hmemf
    have hsome : (lastPresentSource m mp ik).isSome := by
      rw [lastPresentSource]
      simpa using hne
    obtain ⟨ck1, hck1⟩ := Option.isSome_iff_exists.mp hsome
    have hck1mem := List.mem_of_getLast?_eq_some (hck1 : _ = some ck1)
    obtain ⟨p, hpf, hpfst⟩ := List.mem_map.mp hck1mem
    obtain ⟨_, hpred⟩ := List.mem_filter.mp hpf
    obtain ⟨k1, k2⟩ := p
    simp only [beq_iff_eq, Bool.and_eq_true] at hpred
    cases hpfst
    have hc1 : dictContains m k1 = true := hpred.2
    rw [hck1]
    rw [dictContains, Option.isSome_iff_exists] at hc1
    obtain ⟨w, hw⟩ := hc1
    exact ⟨w, by simp [Option.bind, hw]⟩

/-- Nested-schema entries that are present and validate with no error are
skipped by the loop, which continues with the remaining entries. -/
theorem validateNestedSchema_append_ok (f : String) (ves : List (String × Value))
    (pre rest : List (String × Value))
    (hpre : ∀ p ∈ pre, ∃ pv, dictGet? ves p.1 = some pv ∧
        validate_field_type (f ++ "." ++ p.1) pv p.2 = .ok none) :
    validateNestedSchema f ves (pre ++ rest) = validateNestedSchema f ves rest := by
  induction pre with
  | nil => rfl
  | cons p pre ih =>
      obtain ⟨nf, nt⟩ := p
      obtain ⟨pv, hget, hok⟩ := hpre (nf, nt) (List.mem_cons_self _ _)
      have hok' : validate_field_type (f ++ "." ++ nf) pv nt = .ok none := hok
      rw [List.cons_append, validateNestedSchema_cons, hget]
      simp only [hok', pyTruthy]
      simp only [Bool.false_eq_true, if_false]
      exact ih (fun q hq => hpre q (List.mem_cons_of_mem _ hq))

/-- The type-checking loop returns normally when every declared field that is
present in the metadata validates with no error. -/
theorem checkFieldTypes_ok (m : List (String × Value))
    (ft : List (String × Value))
    (hft : ∀ p ∈ ft, ∀ v, dictGet? m p.1 = some v →
        validate_field_type p.1 v p.2 = .ok none) :
    checkFieldTypes m ft = .ok := by
  induction ft with
  | nil => rfl
  | cons p rest ih =>
      obtain ⟨field, et⟩ := p
      rw [checkFieldTypes]
      cases hget : dictGet? m field with
      | none => exact ih (fun q hq => hft q (List.mem_cons_of_mem _ hq))
      | some v =>
          have hok' : validate_field_type field v et = .ok none :=
            hft (field, et) (List.mem_cons_self _ _) v hget
          simp only [hok', pyTruthy]
          simp only [Bool.false_eq_true, if_false]
          exact ih (fun q hq => hft q (List.mem_cons_of_mem _ hq))

/-- A string with a non-empty left component is non-empty. -/
theorem append_ne_empty_left (a b : String) (ha : a ≠ "") : a ++ b ≠ "" := by
  intro h
  apply ha
  have hl := congrArg String.length h
  rw [String.length_append] at hl
  have h0 : String.length "" = 0 := rfl
  rw [h0] at hl
  have ha0 : a.length = 0 := by omega
  cases a with
  | mk data =>
      cases data with
      | nil => rfl
      | cons c cs => simp [String.length] at ha0

/-- C1 counterexample: the claim says the Field Validator applied to a boolean
with expected type tag `"number"` returns an error for every field name; at
field `"age"` with value `True` it returns `.ok none`, i.e. no error, because
`isinstance(True, (int, float))` holds in Python. -/
theorem c1_counterexample :
    validate_field_type "age" (.bool true) (.str "number") = .ok none := by
  rw [validate_field_type_str]
  rfl

/-- C1 (amended): for every field name and every boolean value, the Field
Validator with expected type tag `"number"` returns NO error: the code checks
`isinstance(value, (int, float))` and CPython treats `bool` as a subclass of
`int`, so booleans are accepted as numbers. -/
theorem c1_bool_accepted_as_number (field_name : String) (b : Bool) :
    validate_field_type field_name (.bool b) (.str "number") = .ok none := by
  rw [validate_field_type_str]
  cases b <;> rfl

/-- C2: when at least one required field is absent from the metadata
top-level keys, `validate_metadata` raises a 400 whose detail carries the
full list of absent required fields, as the order-preserving filter of
`required_fields`; the outcome is the same for every `field_types`, i.e. no
type-checking is performed. -/
theorem c2_missing_required_fields (m : List (String × Value))
    (req : List String) (ft : List (String × Value))
    (h : ∃ r ∈ req, dictContains m r = false) :
    validate_metadata m req ft =
      .httpError 400 ("Missing required fields: "
        ++ pyStrListRepr (req.filter (fun f => ! dictContains m f)))
    ∧ ∀ ft2, validate_metadata m req ft2 = validate_metadata m req ft := by
  obtain ⟨r, hr, hc⟩ := h
  have hne : req.filter (fun f => ! dictContains m f) ≠ [] := by
    intro hnil
    have hmem : r ∈ req.filter (fun f => ! dictContains m f) :=
      List.mem_filter.mpr ⟨hr, by simp [hc]⟩
    rw [hnil] at hmem
    simp at hmem
  refine ⟨validate_metadata_missing m req ft hne, fun ft2 => ?_⟩
  rw [validate_metadata_missing m req ft hne, validate_metadata_missing m req ft2 hne]

/-- C2 witness: metadata with no keys, one required field `"a"`. -/
theorem c2_missing_required_fields_witness :
    validate_metadata [] ["a"] [] =
      .httpError 400 ("Missing required fields: "
        ++ pyStrListRepr (["a"].filter (fun f => ! dictContains [] f))) :=
  (c2_missing_required_fields [] ["a"] []
    ⟨"a", List.mem_singleton.mpr rfl, rfl⟩).1

/-- C3: when every required field is present at the top level and every field
declared in `field_types` that is present in the metadata validates with no
error, `validate_metadata` returns normally; declared fields absent from the
metadata are skipped, not an error. -/
theorem c3_validate_metadata_success (m : List (String × Value))
    (req : List String) (ft : List (String × Value))
    (hreq : ∀ r ∈ req, dictContains m r = true)
    (hft : ∀ p ∈ ft, ∀ v, dictGet? m p.1 = some v →
        validate_field_type p.1 v p.2 = .ok none) :
    validate_metadata m req ft = .ok := by
  rw [validate_metadata_present m req ft hreq]
  exact checkFieldTypes_ok m ft hft

/-- C3 witness: one required present field of type string, plus a declared
field `"age"` absent from the metadata (skipped). -/
theorem c3_validate_metadata_success_witness :
    validate_metadata [("name", Value.str "x")] ["name"]
      [("name", Value.str "string"), ("age", Value.str "number")] = .ok := by
  apply c3_validate_metadata_success
  · intro r hr
    rw [List.mem_singleton] at hr
    subst hr
    rfl
  · intro p hp v hv
    rcases List.mem_cons.mp hp with h | h
    · subst h
      rw [show dictGet? [("name", Value.str "x")] "name"
        = some (Value.str "x") from rfl] at hv
      cases hv
      rw [validate_field_type_str]
      rfl
    · rw [List.mem_singleton] at h
      subst h
      rw [show dictGet? [("name", Value.str "x")] "age" = none from rfl] at hv
      cases hv

/-- C9: a nested schema node whose `type` tag is `"object"` but whose
`schema` entry is absent (or is the empty mapping) accepts every mapping
value, whatever its contents. -/
theorem c9_empty_schema_accepts_any_mapping (f : String)
    (ves tes : List (String × Value))
    (ht : dictGet? tes "type" = some (.str "object"))
    (hsch : dictGet? tes "schema" = none ∨ dictGet? tes "schema" = some (.dict [])) :
    validate_field_type f (.dict ves) (.dict tes) = .ok none := by
  have hse : schemaEntries? tes = some [] := by
    rcases hsch with h | h <;> simp [schemaEntries?, h]
  rw [validate_field_type_object_mapping f ves tes [] ht hse]
  exact validateNestedSchema_nil f ves

/-- C9 witness: node `\x7b"type": "object"\x7d` with no `schema` entry accepts
a non-empty mapping. -/
theorem c9_empty_schema_accepts_any_mapping_witness :
    validate_field_type "payload" (.dict [("anything", Value.int 3)])
      (.dict [("type", Value.str "object")]) = .ok none :=
  c9_empty_schema_accepts_any_mapping "payload" [("anything", Value.int 3)]
    [("type", Value.str "object")] rfl (Or.inl rfl)

/-- C10: the required-fields check tests only top-level key membership, so a
required field bound to null counts as present and `validate_metadata`
proceeds to the type-checking loop (part 1); when such a field moreover has
no entry in `field_types`, the metadata is accepted (part 2). -/
theorem c10_null_counts_as_present :
    (∀ (m : List (String × Value)) (req : List String)
        (ft : List (String × Value)),
        (∀ r ∈ req, dictContains m r = true) →
        validate_metadata m req ft = checkFieldTypes m ft)
    ∧ (∀ (f : String) (ft : List (String × Value)),
        (∀ p ∈ ft, p.1 ≠ f) →
        validate_metadata [(f, .null)] [f] ft = .ok) := by
  refine ⟨fun m req ft h => validate_metadata_present m req ft h, ?_⟩
  intro f ft hft
  have hreq : ∀ r ∈ [f], dictContains [(f, Value.null)] r = true := by
    intro r hr
    rw [List.mem_singleton] at hr
    subst hr
    simp [dictContains, dictGet?]
  rw [validate_metadata_present _ _ _ hreq]
  apply checkFieldTypes_ok
  intro p hp v hv
  exfalso
  have hne := hft p hp
  rw [dictGet?, if_neg (fun hh : f = p.1 => hne hh.symm)] at hv
  rw [show dictGet? ([] : List (String × Value)) p.1 = none from rfl] at hv
  cases hv

/-- C10 witness: a required field bound to null passes the presence check and,
with only an unrelated declared field, the metadata is accepted. -/
theorem c10_null_counts_as_present_witness :
    validate_metadata [("x", Value.null)] ["x"] []
        = checkFieldTypes [("x", Value.null)] []
    ∧ validate_metadata [("y", Value.null)] ["y"] [("z", Value.str "string")]
        = .ok := by
  constructor
  · exact c10_null_counts_as_present.1 [("x", Value.null)] ["x"] []
      (by intro r hr; rw [List.mem_singleton] at hr; subst hr; rfl)
  · exact c10_null_counts_as_present.2 "y" [("z", Value.str "string")]
      (by intro p hp; rw [List.mem_singleton] at hp; subst hp; decide)

/-- A tag outside the six recognised ones takes the final `else` branch of the
primitive chain, whose message names the tag (rendered by `str()`). -/
theorem validatePrimitive_unknown_tag (v : Value) (s : String)
    (hs : s ∉ (["string", "number", "boolean", "array", "object",
      "array_of_object"] : List String)) :
    validatePrimitive v (.str s) =
      some ("unsupported data type \x27" ++ s ++ "\x27 in config") := by
  unfold validatePrimitive
  split <;> simp_all [Value.pyStr]

/-- The unsupported-data-type message is a non-empty string, hence truthy. -/
theorem pyTruthy_unsupported_msg (s : String) :
    pyTruthy (some ("unsupported data type \x27" ++ s ++ "\x27 in config"))
      = true := by
  simp only [pyTruthy, bne_iff_ne, ne_eq]
  exact append_ne_empty_left _ _
    (append_ne_empty_left "unsupported data type \x27" s (by decide))

/-- C5: a type tag that is none of the six recognised tags makes the Field
Validator return the unsupported-data-type message naming the tag (part 1),
and, surfaced through `validate_metadata` for a present field, a 400 whose
detail names both the field and the tag (part 2). -/
theorem c5_unsupported_type :
    (∀ (f s : String) (v : Value),
        s ∉ (["string", "number", "boolean", "array", "object",
          "array_of_object"] : List String) →
        validate_field_type f v (.str s) =
          .ok (some ("unsupported data type \x27" ++ s ++ "\x27 in config")))
    ∧ (∀ (m : List (String × Value)) (req : List String) (f s : String)
        (v : Value),
        (∀ r ∈ req, dictContains m r = true) →
        dictGet? m f = some v →
        s ∉ (["string", "number", "boolean", "array", "object",
          "array_of_object"] : List String) →
        validate_metadata m req [(f, .str s)] =
          .httpError 400 ("Incorrect data type for field \x27" ++ f ++ "\x27: "
            ++ ("unsupported data type \x27" ++ s ++ "\x27 in config"))) := by
  constructor
  · intro f s v hs
    rw [validate_field_type_str, validatePrimitive_unknown_tag v s hs]
  · intro m req f s v hreq hv hs
    rw [validate_metadata_present m req _ hreq]
    rw [checkFieldTypes]
    simp only [hv, validate_field_type_str, validatePrimitive_unknown_tag v s hs,
      pyTruthy_unsupported_msg, if_true, Option.getD_some]

/-- C5 witness: unknown tag `"date"` for field `"birth"`. -/
theorem c5_unsupported_type_witness :
    validate_field_type "birth" (.int 0) (.str "date") =
      .ok (some ("unsupported data type \x27" ++ "date" ++ "\x27 in config"))
    ∧ validate_metadata [("birth", Value.int 0)] ["birth"]
        [("birth", Value.str "date")] =
      .httpError 400 ("Incorrect data type for field \x27" ++ "birth" ++ "\x27: "
        ++ ("unsupported data type \x27" ++ "date" ++ "\x27 in config")) := by
  constructor
  · exact c5_unsupported_type.1 "birth" "date" (.int 0) (by decide)
  · exact c5_unsupported_type.2 [("birth", Value.int 0)] ["birth"] "birth" "date"
      (.int 0)
      (by intro r hr; rw [List.mem_singleton] at hr; subst hr; rfl)
      rfl (by decide)

/-- C6: against tag `"array_of_object"` the Field Validator succeeds exactly
when the value is an ordered sequence all of whose elements are mappings
(part 1); when some element is not a mapping, the error is a fixed message
that does not identify which element failed (part 2). -/
theorem c6_array_of_object :
    (∀ (f : String) (v : Value),
        validate_field_type f v (.str "array_of_object") = .ok none ↔
          ∃ elems, v = .list elems ∧ ∀ x ∈ elems, isDictInstance x = true)
    ∧ (∀ (f : String) (elems : List Value),
        (∃ x ∈ elems, isDictInstance x = false) →
        validate_field_type f (.list elems) (.str "array_of_object") =
          .ok (some "expected array of objects, but one or more elements are not objects")) := by
  constructor
  · intro f v
    rw [validate_field_type_str]
    cases v <;> simp [validatePrimitive, List.all_eq_true]
  · intro f elems hex
    rw [validate_field_type_str]
    have hall : elems.all isDictInstance = false := by
      obtain ⟨x, hx, hxd⟩ := hex
      have hnot : ¬ elems.all isDictInstance = true := by
        rw [List.all_eq_true]
        intro hforall
        rw [hforall x hx] at hxd
        cases hxd
      cases hb : elems.all isDictInstance
      · rfl
      · exact absurd hb hnot
    simp [validatePrimitive, hall]

/-- C6 witness: `[\x7b\x7d, 5]` fails with the fixed element-agnostic message. -/
theorem c6_array_of_object_witness :
    validate_field_type "items" (.list [Value.dict [], Value.int 5])
        (.str "array_of_object") =
      .ok (some "expected array of objects, but one or more elements are not objects") :=
  c6_array_of_object.2 "items" [Value.dict [], Value.int 5]
    ⟨Value.int 5, by simp, rfl⟩

/-- C4: for a nested-object node (`type` tag `"object"`): a non-mapping value
fails with a type mismatch naming the field path and actual kind (part 1);
the schema entries are walked in order, the first absent nested field wins
(part 2) and the first truthy nested error is returned without continuing
(part 3); the `\x7bcity: string, zip: number\x7d` schema at `"address"`
accepts `\x7bcity: "NYC", zip: 10001\x7d` (part 4) and rejects
`\x7bcity: "NYC"\x7d` with the missing-nested-field message for
`zip` in `address` (part 5). -/
theorem c4_nested_object_validation :
    (∀ (f : String) (v : Value) (tes : List (String × Value)),
        dictGet? tes "type" = some (.str "object") →
        isDictInstance v = false →
        validate_field_type f v (.dict tes) =
          .ok (some ("expected object for \x27" ++ f ++ "\x27, got "
            ++ v.typeName)))
    ∧ (∀ (f : String) (ves tes pre rest : List (String × Value))
        (nf : String) (nt : Value),
        dictGet? tes "type" = some (.str "object") →
        schemaEntries? tes = some (pre ++ (nf, nt) :: rest) →
        (∀ p ∈ pre, ∃ pv, dictGet? ves p.1 = some pv ∧
            validate_field_type (f ++ "." ++ p.1) pv p.2 = .ok none) →
        dictGet? ves nf = none →
        validate_field_type f (.dict ves) (.dict tes) =
          .ok (some ("missing nested field \x27" ++ nf ++ "\x27 in \x27"
            ++ f ++ "\x27")))
    ∧ (∀ (f : String) (ves tes pre rest : List (String × Value))
        (nf : String) (nt nv : Value) (e : String),
        dictGet? tes "type" = some (.str "object") →
        schemaEntries? tes = some (pre ++ (nf, nt) :: rest) →
        (∀ p ∈ pre, ∃ pv, dictGet? ves p.1 = some pv ∧
            validate_field_type (f ++ "." ++ p.1) pv p.2 = .ok none) →
        dictGet? ves nf = some nv →
        validate_field_type (f ++ "." ++ nf) nv nt = .ok (some e) →
        e ≠ "" →
        validate_field_type f (.dict ves) (.dict tes) = .ok (some e))
    ∧ validate_field_type "address"
        (.dict [("city", Value.str "NYC"), ("zip", Value.int 10001)])
        (.dict [("type", Value.str "object"),
          ("schema", Value.dict [("city", Value.str "string"),
            ("zip", Value.str "number")])]) = .ok none
    ∧ validate_field_type "address"
        (.dict [("city", Value.str "NYC")])
        (.dict [("type", Value.str "object"),
          ("schema", Value.dict [("city", Value.str "string"),
            ("zip", Value.str "number")])]) =
      .ok (some "missing nested field \x27zip\x27 in \x27address\x27") := by
  refine ⟨?_, ?_, ?_, ?_, ?_⟩
  · intro f v tes ht hv
    exact validate_field_type_object_nonMapping f v tes ht hv
  · intro f ves tes pre rest nf nt ht hsch hpre habs
    rw [validate_field_type_object_mapping f ves tes _ ht hsch]
    rw [validateNestedSchema_append_ok f ves pre _ hpre]
    rw [validateNestedSchema_cons, habs]
  · intro f ves tes pre rest nf nt nv e ht hsch hpre hget hrec hne
    rw [validate_field_type_object_mapping f ves tes _ ht hsch]
    rw [validateNestedSchema_append_ok f ves pre _ hpre]
    rw [validateNestedSchema_cons]
    simp only [hget, hrec, pyTruthy]
    simp [hne]
  · simp [validate_field_type, validateNestedSchema, schemaEntries?, dictGet?,
      validatePrimitive, isStrInstance, isNumericInstance, pyTruthy]
  · simp [validate_field_type, validateNestedSchema, schemaEntries?, dictGet?,
      validatePrimitive, isStrInstance, isNumericInstance, pyTruthy]

/-- C4 witness: parts 1-3 applied at concrete inputs (non-mapping value,
absent nested field, failing nested validation). -/
theorem c4_nested_object_validation_witness :
    validate_field_type "address" (.int 5) (.dict [("type", Value.str "object")]) =
      .ok (some ("expected object for \x27" ++ "address" ++ "\x27, got "
        ++ (Value.int 5).typeName))
    ∧ validate_field_type "address" (.dict [])
        (.dict [("type", Value.str "object"),
          ("schema", Value.dict [("zip", Value.str "number")])]) =
      .ok (some ("missing nested field \x27" ++ "zip" ++ "\x27 in \x27"
        ++ "address" ++ "\x27"))
    ∧ validate_field_type "address" (.dict [("zip", Value.int 1)])
        (.dict [("type", Value.str "object"),
          ("schema", Value.dict [("zip", Value.str "string")])]) =
      .ok (some "expected string, got int") := by
  refine ⟨?_, ?_, ?_⟩
  · exact c4_nested_object_validation.1 "address" (.int 5)
      [("type", Value.str "object")] rfl rfl
  · exact c4_nested_object_validation.2.1 "address" []
      [("type", Value.str "object"),
        ("schema", Value.dict [("zip", Value.str "number")])]
      [] [] "zip" (Value.str "number") rfl rfl
      (fun p hp => absurd hp (List.not_mem_nil p)) rfl
  · exact c4_nested_object_validation.2.2.1 "address" [("zip", Value.int 1)]
      [("type", Value.str "object"),
        ("schema", Value.dict [("zip", Value.str "string")])]
      [] [] "zip" (Value.str "string") (Value.int 1) "expected string, got int"
      rfl rfl (fun p hp => absurd hp (List.not_mem_nil p)) rfl
      (by rw [validate_field_type_str]; rfl) (by decide)

/-- When the internal keys of the rename map are pairwise distinct, the entry
targeting `ik` with a present consumer key is unique, and the filter keeps
exactly it. -/
theorem filter_target_unique (m : List (String × Value))
    (mp : List (String × String)) (ik ck : String)
    (hnodup : (mp.map Prod.snd).Nodup)
    (hmem : (ck, ik) ∈ mp) (hcont : dictContains m ck = true) :
    mp.filter (fun p => p.2 == ik && dictContains m p.1) = [(ck, ik)] := by
  induction mp with
  | nil => cases hmem
  | cons q mp ih =>
      rw [List.map_cons, List.nodup_cons] at hnodup
      obtain ⟨hq, hnodup2⟩ := hnodup
      rcases List.mem_cons.mp hmem with h | h
      · subst h
        rw [List.filter_cons]
        have hpred : ((ck, ik).2 == ik && dictContains m (ck, ik).1) = true := by
          simp [hcont]
        rw [if_pos hpred]
        have hnil : mp.filter (fun p => p.2 == ik && dictContains m p.1) = [] := by
          rw [List.filter_eq_nil_iff]
          intro p hp
          simp only [Bool.and_eq_true, beq_iff_eq, not_and]
          intro h2 _
          apply hq
          show ik ∈ List.map Prod.snd mp
          rw [← h2]
          exact List.mem_map_of_mem Prod.snd hp
        rw [hnil]
      · have hq2 : ¬ q.2 = ik := by
          intro he
          apply hq
          rw [he]
          exact List.mem_map_of_mem Prod.snd h
        rw [List.filter_cons, if_neg (by simp [hq2])]
        exact ih hnodup2 h

/-- C7: `normalize_metadata` is a pure total function whose result record is
exactly determined by the rename map and the metadata: a key is present in
the result exactly when some mapping entry targets it and its consumer key is
present (so unmapped metadata keys are dropped and unmatched mapping entries
produce no key) (part 1); and, when the internal keys are pairwise distinct,
the result binds each targeted internal key to `metadata[consumerKey]`
(part 2). -/
theorem c7_normalize_metadata :
    (∀ (m : List (String × Value)) (mp : List (String × String)) (ik : String),
        dictContains (normalize_metadata m mp) ik = true ↔
          ∃ ck, (ck, ik) ∈ mp ∧ dictContains m ck = true)
    ∧ (∀ (m : List (String × Value)) (mp : List (String × String)),
        (mp.map Prod.snd).Nodup →
        ∀ (ck ik : String) (v : Value), (ck, ik) ∈ mp →
          dictGet? m ck = some v →
          dictGet? (normalize_metadata m mp) ik = some v) := by
  refine ⟨dictContains_normalize, ?_⟩
  intro m mp hnodup ck ik v hmem hv
  have hcont : dictContains m ck = true := by
    rw [dictContains, hv]
    rfl
  rw [normalize_metadata_lookup]
  have hlast : lastPresentSource m mp ik = some ck := by
    rw [lastPresentSource, filter_target_unique m mp ik ck hnodup hmem hcont]
    rfl
  rw [hlast]
  simp [Option.bind, hv]

/-- C7 witness: `\x7bfull_name: X\x7d` with mapping `full_name -> name`. -/
theorem c7_normalize_metadata_witness :
    dictGet? (normalize_metadata [("full_name", Value.str "X")]
      [("full_name", "name")]) "name" = some (Value.str "X") :=
  c7_normalize_metadata.2 [("full_name", Value.str "X")] [("full_name", "name")]
    (by simp) "full_name" "name" (Value.str "X") (by simp) rfl

/-- C8: looking up an internal key in the normalized record yields the
metadata value of the LAST mapping entry targeting it whose consumer key is
present (last write wins, part 1); two present consumer keys mapped to the
same internal key therefore collapse to one entry holding the later value
(part 2: two mapped-and-present keys, one resulting entry). -/
theorem c8_last_write_wins :
    (∀ (m : List (String × Value)) (mp : List (String × String)) (ik : String),
        dictGet? (normalize_metadata m mp) ik =
          (lastPresentSource m mp ik).bind (fun ck => dictGet? m ck))
    ∧ normalize_metadata [("a", Value.int 1), ("b", Value.int 2)]
        [("a", "x"), ("b", "x")] = [("x", Value.int 2)] :=
  ⟨normalize_metadata_lookup, rfl⟩
